import Mathlib

/-!
Verification of the bank cash-flow analytics core
(`src/analytics/cashflow_analyzer.py` and `src/models/analytics.py`).

The Python code is shallowly embedded: monetary amounts and percentages
become `ℚ` (the float arithmetic of the source carries no rounding-sensitive
logic in the properties considered here), transaction records become a
record with optional fields mirroring the mapping-shaped inputs the
analyzer accepts (`txn.get('date', '')`, `txn.get('amount', 0)`,
`txn.get('description', '')`), the analyzer's mutable state
(`self.transactions`, `self.monthly_data`, the `self.analysis` cache)
becomes an explicit state record threaded through each method, and a
Python method that either returns a populated dict or the empty dict `{}`
becomes a function into `Option R` (`none` standing for `{}`).

One representational note: `numpy.std` is a square root, which is not
rational.  Wherever the source compares against a standard deviation
(the large-deposit threshold `mean + 2*std`, the volatility test
`cv > 30` with `cv = std/mean*100`) the embedding stores the variance
(the square of the std) and performs the arithmetically equivalent
squared comparison; result records therefore carry the variance / squared
CV in place of the std / CV.  No claim below inspects those scalar fields
except through the equivalent comparisons.
-/

namespace Cashflow

/-- Mean of a list of rationals, `numpy.mean`; division by zero yields 0,
matching the guarded call sites (the source never takes a mean of an
empty list). -/
def qmean (l : List ℚ) : ℚ := l.sum / l.length

/-- Population variance of a list of rationals: the square of `numpy.std`. -/
def qvar (l : List ℚ) : ℚ := qmean (l.map (fun x => (x - qmean l) ^ 2))

/-- Python `max(l)` under the source's `if l else 0` guard. -/
def listMax (l : List ℚ) : ℚ :=
  match l with
  | [] => 0
  | x :: xs => xs.foldl max x

/-- Python `min(l)` under the source's `if l else 0` guard. -/
def listMin (l : List ℚ) : ℚ :=
  match l with
  | [] => 0
  | x :: xs => xs.foldl min x

/-- Python `f"{n:02d}"` for a natural number: zero-pad to width two. -/
def pad2 (n : ℕ) : String :=
  if n < 10 then "0" ++ toString n else toString n

/-- Python dict lookup `d.get(k)` on an association list kept in insertion
order. -/
def alookup {α : Type} (m : List (String × α)) (k : String) : Option α :=
  match m with
  | [] => none
  | (k₁, v) :: rest => if k₁ = k then some v else alookup rest k

/-- Python dict assignment `d[k] = v`: overwrite in place when the key is
present, append otherwise. -/
def dictInsert {α : Type} (m : List (String × α)) (k : String) (v : α) :
    List (String × α) :=
  match m with
  | [] => [(k, v)]
  | (k₁, v₁) :: rest =>
    if k₁ = k then (k₁, v) :: rest else (k₁, v₁) :: dictInsert rest k v

/-- Mutation of a `defaultdict` entry: `d[k]` materialises the default when
the key is absent, and the entry is updated in place. -/
def dictUpd {α : Type} (dflt : α) (m : List (String × α)) (k : String)
    (f : α → α) : List (String × α) :=
  match m with
  | [] => [(k, f dflt)]
  | (k₁, v) :: rest =>
    if k₁ = k then (k₁, f v) :: rest else (k₁, v) :: dictUpd dflt rest k f

/-- Whether the first character list starts the second. -/
def listPre : List Char → List Char → Bool
  | [], _ => true
  | _ :: _, [] => false
  | a :: as, b :: bs => decide (a = b) && listPre as bs

/-- Containment of one character list in another, Python's `needle in hay`
for strings. -/
def subLst (needle : List Char) : List Char → Bool
  | [] => needle.isEmpty
  | c :: rest => listPre needle (c :: rest) || subLst needle rest

/-- Python substring test `needle in hay`. -/
def strContains (hay needle : String) : Bool :=
  subLst needle.toList hay.toList

/-- Code-point lexicographic string order, the order Python compares
strings with (and the order of Lean's `String` instances). -/
def lexLe : List Char → List Char → Bool
  | [], _ => true
  | _ :: _, [] => false
  | a :: as, b :: bs =>
    if a.toNat < b.toNat then true
    else if b.toNat < a.toNat then false
    else lexLe as bs

/-- String comparison for sorting the `"YYYY-MM"` keys. -/
def strLeB (a b : String) : Bool := lexLe a.toList b.toList

/-- Ordered insertion of a key into a sorted key list. -/
def insertKey (x : String) : List String → List String
  | [] => [x]
  | y :: ys => if strLeB x y then x :: y :: ys else y :: insertKey x ys

/-- Ascending sort of key lists (Python's `sorted`; the bucket keys are
distinct, so any correct sort produces the same list). -/
def sortStrs (l : List String) : List String := l.foldr insertKey []

/-- Keys of the bucket map sorted ascending, Python
`sorted(self.monthly_data.keys())`. -/
def sortedKeysAsc {α : Type} (m : List (String × α)) : List String :=
  sortStrs (m.map Prod.fst)

/-- Keys of the bucket map sorted descending, Python
`sorted(self.monthly_data.keys(), reverse=True)`. -/
def sortedKeysDesc {α : Type} (m : List (String × α)) : List String :=
  (sortedKeysAsc m).reverse

/-- The value of a decimal-digit character. -/
def charDigit? (c : Char) : Option ℕ :=
  if 48 ≤ c.toNat ∧ c.toNat ≤ 57 then some (c.toNat - 48) else none

/-- Accumulating decimal parse; fails on any non-digit. -/
def digitsAcc : List Char → ℕ → Option ℕ
  | [], acc => some acc
  | c :: rest, acc =>
    match charDigit? c with
    | some d => digitsAcc rest (acc * 10 + d)
    | none => none

/-- Parse of a non-empty all-digit string as a natural number, the shape
of the numeric fields `strptime` extracts. -/
def strToNat? (s : String) : Option ℕ :=
  if s.toList.isEmpty then none else digitsAcc s.toList 0

/-- Split of a character list at every occurrence of a separator. -/
def splitCharAux (sep : Char) : List Char → List Char → List (List Char)
  | [], acc => [acc.reverse]
  | c :: rest, acc =>
    if c = sep then acc.reverse :: splitCharAux sep rest []
    else splitCharAux sep rest (c :: acc)

/-- Python `s.split(sep)` for a one-character separator. -/
def splitStr (s : String) (sep : Char) : List String :=
  (splitCharAux sep s.toList []).map List.asString

/-- ASCII upper-casing of one character: `str.upper` restricted to the
ASCII range, which covers every keyword the analyzer matches against. -/
def upperChar (c : Char) : Char :=
  if 97 ≤ c.toNat ∧ c.toNat ≤ 122 then Char.ofNat (c.toNat - 32) else c

/-- ASCII `str.upper`. -/
def upperStr (s : String) : String := (s.toList.map upperChar).asString

/-! ### Dates (`_parse_date`) -/

/-- A successfully parsed calendar date (`datetime.date`). -/
structure PDate where
  year : ℕ
  month : ℕ
  day : ℕ
deriving DecidableEq, Repr

/-- Gregorian leap-year test, as `datetime` validates day-of-month. -/
def isLeap (y : ℕ) : Bool :=
  y % 4 = 0 && (y % 100 ≠ 0 || y % 400 = 0)

/-- Days in a month, as `datetime` validates day-of-month. -/
def daysInMonth (y m : ℕ) : ℕ :=
  if m = 2 then (if isLeap y then 29 else 28)
  else if m = 4 || m = 6 || m = 9 || m = 11 then 30
  else 31

/-- Validity of a parsed `(year, month, day)` triple under `strptime`:
the year field is four digits and `datetime` requires `year ≥ 1`; month
and day fields are one or two digits with the ranges the `strptime`
patterns enforce, and the day must exist in the month. -/
def validYMD (ys ms ds : String) (y m d : ℕ) : Bool :=
  ys.length = 4 && 1 ≤ y && ms.length ≤ 2 && 1 ≤ m && m ≤ 12 &&
    ds.length ≤ 2 && 1 ≤ d && d ≤ daysInMonth y m

/-- `datetime.strptime(s, '%Y-%m-%d')` as a total function. -/
def parseYMD (s : String) : Option PDate :=
  match splitStr s '-' with
  | [ys, ms, ds] =>
    match strToNat? ys, strToNat? ms, strToNat? ds with
    | some y, some m, some d =>
      if validYMD ys ms ds y m d then some ⟨y, m, d⟩ else none
    | _, _, _ => none
  | _ => none

/-- `datetime.strptime(s, '%m/%d/%Y')` as a total function. -/
def parseMDY (s : String) : Option PDate :=
  match splitStr s '/' with
  | [ms, ds, ys] =>
    match strToNat? ys, strToNat? ms, strToNat? ds with
    | some y, some m, some d =>
      if validYMD ys ms ds y m d then some ⟨y, m, d⟩ else none
    | _, _, _ => none
  | _ => none

/-- `BankCashFlowAnalyzer._parse_date`: empty string is falsy and yields
`None`; otherwise ISO format first, US format as fallback, `None` when
neither matches. -/
def parse_date (s : String) : Option PDate :=
  if s = "" then none
  else
    match parseYMD s with
    | some d => some d
    | none => parseMDY s

/-! ### Transactions -/

/-- A mapping-shaped transaction record as the analyzer consumes it:
each field read goes through `txn.get(field, default)`, so every field
is optional. -/
structure Txn where
  date : Option String := none
  amount : Option ℚ := none
  description : Option String := none
deriving DecidableEq, Repr

/-- `txn.get('amount', 0)`. -/
def amtOf (t : Txn) : ℚ := t.amount.getD 0

/-- `str(txn.get('description', '')).upper()`. -/
def descOf (t : Txn) : String := upperStr (t.description.getD "")

/-- The parsed date of a record: `self._parse_date(txn.get('date', ''))`. -/
def txnDate (t : Txn) : Option PDate := parse_date (t.date.getD "")

/-- The month key `f"{d.year}-{d.month:02d}"` of a parsed date. -/
def monthKeyOf (d : PDate) : String := toString d.year ++ "-" ++ pad2 d.month

/-- The bucket key a record lands in, `none` when its date is missing or
unparseable (the record is then skipped). -/
def txnKey (t : Txn) : Option String := (txnDate t).map monthKeyOf

/-! ### `MonthlyData` (`src/models/analytics.py`) -/

/-- The `MonthlyData` dataclass; every unset field defaults to zero. -/
structure MonthlyData where
  period : String
  year : ℕ
  month : ℕ
  beginning_balance : ℚ := 0
  ending_balance : ℚ := 0
  total_deposits : ℚ := 0
  total_withdrawals : ℚ := 0
  deposit_count : ℕ := 0
  withdrawal_count : ℕ := 0
  net_cash_flow : ℚ := 0
  avg_deposit : ℚ := 0
  max_deposit : ℚ := 0
  min_deposit : ℚ := 0
  average_balance : ℚ := 0
  nsf_count : ℕ := 0
  negative_days : ℕ := 0
deriving DecidableEq, Repr

/-- Placeholder bucket used to give dict indexing `self.monthly_data[k]` a
total type; every indexing site only ever uses keys of the map. -/
def dfltMD : MonthlyData := { period := "", year := 0, month := 0 }

/-- Bucket lookup `self.monthly_data[k]` at a key known to be present. -/
def mdGet (m : List (String × MonthlyData)) (k : String) : MonthlyData :=
  (alookup m k).getD dfltMD

/-! ### `_process_transactions` -/

/-- The per-month accumulator of `_process_transactions`: the
`defaultdict` value `{'deposits': [], 'withdrawals': [], 'all_transactions': []}`. -/
structure MGroup where
  deposits : List ℚ := []
  withdrawals : List ℚ := []
  all_transactions : List Txn := []
deriving DecidableEq, Repr

/-- One iteration of the transaction loop in `_process_transactions`:
skip the record when its date is unusable, otherwise append it to its
month's accumulator, its absolute amount going to `deposits` when
`amount > 0` and to `withdrawals` otherwise. -/
def groupStep (m : List (String × MGroup)) (t : Txn) : List (String × MGroup) :=
  match txnKey t with
  | none => m
  | some k =>
    dictUpd {} m k (fun g =>
      if amtOf t > 0 then
        { g with all_transactions := g.all_transactions ++ [t],
                 deposits := g.deposits ++ [|amtOf t|] }
      else
        { g with all_transactions := g.all_transactions ++ [t],
                 withdrawals := g.withdrawals ++ [|amtOf t|] })

/-- The grouping loop of `_process_transactions`. -/
def groupTxns (ts : List Txn) : List (String × MGroup) :=
  ts.foldl groupStep []

/-- The year component `int(month_key.split('-')[0])` of a bucket key. -/
def keyYear (k : String) : ℕ := (strToNat? ((splitStr k '-').getD 0 "")).getD 0

/-- The month component `int(month_key.split('-')[1])` of a bucket key. -/
def keyMonth (k : String) : ℕ := (strToNat? ((splitStr k '-').getD 1 "")).getD 0

/-- The `MonthlyData` built from one month's accumulator: the year and
month are recovered by splitting the key on `-`, and the balance fields
keep their zero defaults. -/
def aggGroup (k : String) (g : MGroup) : MonthlyData :=
  { period := k,
    year := keyYear k,
    month := keyMonth k,
    total_deposits := g.deposits.sum,
    total_withdrawals := g.withdrawals.sum,
    deposit_count := g.deposits.length,
    withdrawal_count := g.withdrawals.length,
    net_cash_flow := g.deposits.sum - g.withdrawals.sum,
    avg_deposit := if g.deposits.isEmpty then 0 else qmean g.deposits,
    max_deposit := listMax g.deposits,
    min_deposit := listMin g.deposits }

/-- The aggregation loop of `_process_transactions`: each grouped month is
assigned into the existing `self.monthly_data` (overwriting that key,
keeping all others). -/
def processInto (md : List (String × MonthlyData)) (ts : List Txn) :
    List (String × MonthlyData) :=
  (groupTxns ts).foldl (fun acc kg => dictInsert acc kg.1 (aggGroup kg.1 kg.2)) md

/-! ### Analysis result shapes

Each Python analysis method returns either a populated dict or `{}`; the
populated shapes are the records below and `{}` is `Option.none`. -/

/-- Result of `calculate_trailing_averages` (whenever the bucket map is
non-empty all conditional keys are present, so the shape is flat).  The
`months_3/6/12` fields are the `months` entries of the `3_month`,
`6_month` and `12_month` sub-dicts, whose `avg_deposits` entries repeat
the corresponding `avg_*_month_deposits` values. -/
structure TrailingResult where
  months_available : ℕ
  trend : String
  avg_3_month_deposits : ℚ
  months_3 : ℕ
  avg_6_month_deposits : ℚ
  months_6 : ℕ
  avg_12_month_deposits : ℚ
  months_12 : ℕ
  annualized_deposits : ℚ
deriving DecidableEq, Repr

/-- Result of `calculate_monthly_trends`.  `volatility_cv_sq` is the
square of the source's `volatility_cv` (see the header note on `std`);
`high_volatility` is the source's `cv > 30` computed as the equivalent
squared comparison. -/
structure TrendsResult where
  trend_direction : String
  avg_mom_change : ℚ
  volatility_cv_sq : ℚ
  high_volatility : Bool
  mom_changes : List ℚ
deriving DecidableEq, Repr

/-- One category entry of `categorize_deposits`. -/
structure CategoryStat where
  total : ℚ := 0
  count : ℕ := 0
  pct_of_total : ℚ := 0
deriving DecidableEq, Repr

/-- Result of `categorize_deposits` (this method always returns the full
category dict, never `{}`). -/
structure CategoriesResult where
  ach : CategoryStat := {}
  wire : CategoryStat := {}
  cash : CategoryStat := {}
  card : CategoryStat := {}
  other : CategoryStat := {}
  total_categorized : ℚ := 0
deriving DecidableEq, Repr

/-- Result of `analyze_large_deposits`.  `mean` and `var` are the
source's `mean` and the square of its `std`; the source's `threshold`
(`mean + 2*std`) is represented by the equivalent squared comparison in
`largeCount` below. -/
structure LargeResult where
  mean : ℚ
  var : ℚ
  count : ℕ
  total : ℚ
  pct_from_large : ℚ
  largest : ℚ
deriving DecidableEq, Repr

/-- Result of `analyze_balance_trends`. -/
structure BalanceResult where
  average_balance : ℚ
  min_balance : ℚ
  max_balance : ℚ
  balance_change : ℚ
  balance_change_pct : ℚ
  balance_trend : String
deriving DecidableEq, Repr

/-- Result of `check_nsf_overdraft` (always returned populated). -/
structure NsfResult where
  nsf_count : ℕ
  nsf_total_fees : ℚ
  severity : String
deriving DecidableEq, Repr

/-- Result of `calculate_average_daily_balance`. -/
structure AdbResult where
  average_daily_balance : ℚ
  months_included : ℕ
deriving DecidableEq, Repr

/-- The `self.analysis` cache: each method stores its result under its
name when (and only when) it returns a populated dict. -/
structure AnalysisCache where
  trailing_averages : Option TrailingResult := none
  monthly_trends : Option TrendsResult := none
  deposit_categories : Option CategoriesResult := none
  large_deposits : Option LargeResult := none
  balance_trends : Option BalanceResult := none
  nsf_overdraft : Option NsfResult := none
  average_daily_balance : Option AdbResult := none
deriving DecidableEq, Repr

/-! ### Analyzer state and loading -/

/-- The mutable state of a `BankCashFlowAnalyzer` instance (the unused
`daily_balances` list is omitted). -/
structure Analyzer where
  transactions : List Txn := []
  monthly_data : List (String × MonthlyData) := []
  analysis : AnalysisCache := {}
deriving DecidableEq, Repr

/-- `BankCashFlowAnalyzer()`. -/
def Analyzer.init : Analyzer := {}

/-- `load_transactions`: store the list and run `_process_transactions`,
which merges the freshly aggregated buckets into `self.monthly_data`. -/
def load_transactions (a : Analyzer) (ts : List Txn) : Analyzer :=
  { a with transactions := ts, monthly_data := processInto a.monthly_data ts }

/-- `add_monthly_summary`: build the key `f"{year}-{month:02d}"` and
overwrite that bucket with directly supplied balances and totals. -/
def add_monthly_summary (a : Analyzer) (month year : ℕ)
    (beginning_balance ending_balance total_deposits total_withdrawals : ℚ)
    (deposit_count : ℕ := 0) : Analyzer :=
  let key := toString year ++ "-" ++ pad2 month
  let bucket : MonthlyData :=
    { period := key,
      year := year,
      month := month,
      beginning_balance := beginning_balance,
      ending_balance := ending_balance,
      total_deposits := total_deposits,
      total_withdrawals := total_withdrawals,
      deposit_count := deposit_count,
      net_cash_flow := total_deposits - total_withdrawals,
      average_balance := (beginning_balance + ending_balance) / 2 }
  { a with monthly_data := dictInsert a.monthly_data key bucket }

/-! ### `calculate_trailing_averages` -/

/-- The per-month `total_deposits` stream of the buckets, most recent
first, as `calculate_trailing_averages` walks it. -/
def depositsDesc (md : List (String × MonthlyData)) : List ℚ :=
  (sortedKeysDesc md).map (fun k => (mdGet md k).total_deposits)

/-- Body of `calculate_trailing_averages`: `none` on the `if not
self.monthly_data: return {}` path; otherwise the 3/6/12-bucket windows
over the descending-sorted buckets, their means, the annualized figure,
and the 3-month trend label (`increasing` when the newest window entry
exceeds the oldest times 1.1, `decreasing` when it falls below the
oldest times 0.9, default `stable`, requiring a full 3-bucket window). -/
def trailingCore (md : List (String × MonthlyData)) : Option TrailingResult :=
  if md.isEmpty then none
  else
    let deposits := depositsDesc md
    let deposits_3mo := deposits.take 3
    let deposits_6mo := deposits.take 6
    let deposits_12mo := deposits.take 12
    let trend :=
      if 3 ≤ deposits_3mo.length then
        if deposits_3mo.headD 0 > deposits_3mo.getLastD 0 * (11 / 10) then
          "increasing"
        else if deposits_3mo.headD 0 < deposits_3mo.getLastD 0 * (9 / 10) then
          "decreasing"
        else "stable"
      else "stable"
    some
      { months_available := deposits.length,
        trend := trend,
        avg_3_month_deposits := qmean deposits_3mo,
        months_3 := deposits_3mo.length,
        avg_6_month_deposits := qmean deposits_6mo,
        months_6 := deposits_6mo.length,
        avg_12_month_deposits := qmean deposits_12mo,
        months_12 := deposits_12mo.length,
        annualized_deposits := qmean deposits_12mo * 12 }

/-! ### `calculate_monthly_trends` -/

/-- The month-over-month percentage changes: for each consecutive pair
with positive earlier value, `(curr - prev)/prev * 100`; pairs with
non-positive `prev` are skipped. -/
def momChanges : List ℚ → List ℚ
  | [] => []
  | [_] => []
  | x :: y :: rest =>
    (if x > 0 then [(y - x) / x * 100] else []) ++ momChanges (y :: rest)

/-- Body of `calculate_monthly_trends`: `none` when fewer than two
buckets exist; otherwise MoM changes over the ascending-sorted deposit
stream, the squared coefficient of variation, the `cv > 30` volatility
flag (as the equivalent squared comparison), and the trend label from
the mean MoM change. -/
def trendsCore (md : List (String × MonthlyData)) : Option TrendsResult :=
  if md.length < 2 then none
  else
    let deposits := (sortedKeysAsc md).map (fun k => (mdGet md k).total_deposits)
    let mom := momChanges deposits
    let mean := qmean deposits
    let cv_sq := if mean > 0 then qvar deposits / mean ^ 2 * 10000 else 0
    let trend :=
      if mom.isEmpty then "stable"
      else if qmean mom > 5 then "increasing"
      else if qmean mom < -5 then "decreasing"
      else "stable"
    some
      { trend_direction := trend,
        avg_mom_change := if mom.isEmpty then 0 else qmean mom,
        volatility_cv_sq := cv_sq,
        high_volatility := cv_sq > 900,
        mom_changes := mom }

/-! ### `categorize_deposits` -/

/-- Addition of one deposit into a category entry. -/
def catAdd (s : CategoryStat) (amount : ℚ) : CategoryStat :=
  { s with total := s.total + amount, count := s.count + 1 }

/-- One iteration of the categorization loop: non-positive amounts are
skipped; otherwise the upper-cased description is matched against the
keyword rules in precedence order and the amount is added to the first
matching category and to `total_categorized`. -/
def catStep (c : CategoriesResult) (t : Txn) : CategoriesResult :=
  if amtOf t ≤ 0 then c
  else if strContains (descOf t) "WIRE" || strContains (descOf t) "ORIG:" then
    { c with wire := catAdd c.wire (amtOf t),
             total_categorized := c.total_categorized + amtOf t }
  else if strContains (descOf t) "ACH" then
    { c with ach := catAdd c.ach (amtOf t),
             total_categorized := c.total_categorized + amtOf t }
  else if strContains (descOf t) "CASH" || strContains (descOf t) "ATM" then
    { c with cash := catAdd c.cash (amtOf t),
             total_categorized := c.total_categorized + amtOf t }
  else if strContains (descOf t) "CARD" || strContains (descOf t) "MERCHANT" then
    { c with card := catAdd c.card (amtOf t),
             total_categorized := c.total_categorized + amtOf t }
  else
    { c with other := catAdd c.other (amtOf t),
             total_categorized := c.total_categorized + amtOf t }

/-- Filling of one category's percentage once the grand total is known. -/
def withPct (total : ℚ) (s : CategoryStat) : CategoryStat :=
  { s with pct_of_total := s.total / total * 100 }

/-- Body of `categorize_deposits`: fold the loop over all transactions,
then fill in percentages when `total_categorized > 0`.  This method never
returns `{}`. -/
def categorizeCore (ts : List Txn) : CategoriesResult :=
  let c := ts.foldl catStep {}
  if c.total_categorized > 0 then
    { c with ach := withPct c.total_categorized c.ach,
             wire := withPct c.total_categorized c.wire,
             cash := withPct c.total_categorized c.cash,
             card := withPct c.total_categorized c.card,
             other := withPct c.total_categorized c.other }
  else c

/-! ### `analyze_large_deposits` -/

/-- The positive raw amounts, as the list comprehension in
`analyze_large_deposits` collects them. -/
def positiveAmounts (ts : List Txn) : List ℚ :=
  ts.filterMap (fun t => if amtOf t > 0 then some (amtOf t) else none)

/-- The source's strict comparison `d > threshold` with
`threshold = mean + 2*std`: since `std = sqrt var ≥ 0` this holds exactly
when `d > mean` and `(d - mean)^2 > 4*var`. -/
def isLarge (mean var d : ℚ) : Bool :=
  mean < d && 4 * var < (d - mean) ^ 2

/-- Body of `analyze_large_deposits`: `none` when no positive amounts
exist; otherwise the outlier statistics over the positive amounts. -/
def largeCore (ts : List Txn) : Option LargeResult :=
  let deposits := positiveAmounts ts
  if deposits.isEmpty then none
  else
    let mean := qmean deposits
    let var := qvar deposits
    let large := deposits.filter (isLarge mean var)
    some
      { mean := mean,
        var := var,
        count := large.length,
        total := large.sum,
        pct_from_large :=
          if deposits.sum > 0 then large.sum / deposits.sum * 100 else 0,
        largest := listMax deposits }

/-! ### `analyze_balance_trends` -/

/-- Body of `analyze_balance_trends`: `none` on an empty bucket map and
when no bucket has a strictly positive ending balance; otherwise
first-vs-last percentage change over the positive ending balances in
ascending month order, with the ±10 percent trend label. -/
def balanceCore (md : List (String × MonthlyData)) : Option BalanceResult :=
  if md.isEmpty then none
  else
    let balances :=
      ((sortedKeysAsc md).map (fun k => (mdGet md k).ending_balance)).filter
        (fun b => b > 0)
    if balances.isEmpty then none
    else
      let first := balances.headD 0
      let last := balances.getLastD 0
      let change := last - first
      let pct := if first > 0 then change / first * 100 else 0
      let trend :=
        if pct > 10 then "increasing"
        else if pct < -10 then "decreasing"
        else "stable"
      some
        { average_balance := qmean balances,
          min_balance := listMin balances,
          max_balance := listMax balances,
          balance_change := change,
          balance_change_pct := pct,
          balance_trend := trend }

/-! ### `check_nsf_overdraft` -/

/-- The NSF keyword list of `check_nsf_overdraft`. -/
def nsf_keywords : List String :=
  ["NSF", "INSUFFICIENT", "OVERDRAFT", "OD FEE", "RETURNED ITEM"]

/-- Whether a transaction's upper-cased description contains at least one
NSF keyword; the source's inner loop breaks on the first hit, so each
transaction contributes at most once. -/
def hasNsfKw (t : Txn) : Bool :=
  nsf_keywords.any (fun kw => strContains (descOf t) kw)

/-- Body of `check_nsf_overdraft`: accumulate the count and the summed
absolute amount of keyword-matching transactions, then grade severity.
This method never returns `{}`. -/
def nsfCore (ts : List Txn) : NsfResult :=
  let acc := ts.foldl
    (fun (acc : ℕ × ℚ) t =>
      if hasNsfKw t then (acc.1 + 1, acc.2 + |amtOf t|) else acc) (0, 0)
  { nsf_count := acc.1,
    nsf_total_fees := acc.2,
    severity :=
      if acc.1 > 5 then "HIGH" else if acc.1 > 0 then "MODERATE" else "NONE" }

/-! ### `calculate_average_daily_balance` -/

/-- Body of `calculate_average_daily_balance`: `none` on an empty bucket
map and when no bucket has a strictly positive `average_balance`;
otherwise the mean of the positive monthly averages. -/
def adbCore (md : List (String × MonthlyData)) : Option AdbResult :=
  if md.isEmpty then none
  else
    let monthly_avgs :=
      ((sortedKeysAsc md).map (fun k => (mdGet md k).average_balance)).filter
        (fun b => b > 0)
    if monthly_avgs.isEmpty then none
    else
      some
        { average_daily_balance := qmean monthly_avgs,
          months_included := monthly_avgs.length }

/-! ### Stateful method wrappers

Each Python method caches its result in `self.analysis` exactly when it
returns a populated dict; the early-return `{}` paths leave the cache
untouched. -/

/-- `calculate_trailing_averages` as a state transformer. -/
def calculate_trailing_averages (a : Analyzer) :
    Analyzer × Option TrailingResult :=
  match trailingCore a.monthly_data with
  | none => (a, none)
  | some r =>
    ({ a with analysis := { a.analysis with trailing_averages := some r } },
     some r)

/-- `calculate_monthly_trends` as a state transformer. -/
def calculate_monthly_trends (a : Analyzer) : Analyzer × Option TrendsResult :=
  match trendsCore a.monthly_data with
  | none => (a, none)
  | some r =>
    ({ a with analysis := { a.analysis with monthly_trends := some r } },
     some r)

/-- `categorize_deposits` as a state transformer (always populated). -/
def categorize_deposits (a : Analyzer) : Analyzer × Option CategoriesResult :=
  let r := categorizeCore a.transactions
  ({ a with analysis := { a.analysis with deposit_categories := some r } },
   some r)

/-- `analyze_large_deposits` as a state transformer. -/
def analyze_large_deposits (a : Analyzer) : Analyzer × Option LargeResult :=
  match largeCore a.transactions with
  | none => (a, none)
  | some r =>
    ({ a with analysis := { a.analysis with large_deposits := some r } },
     some r)

/-- `analyze_balance_trends` as a state transformer. -/
def analyze_balance_trends (a : Analyzer) : Analyzer × Option BalanceResult :=
  match balanceCore a.monthly_data with
  | none => (a, none)
  | some r =>
    ({ a with analysis := { a.analysis with balance_trends := some r } },
     some r)

/-- `check_nsf_overdraft` as a state transformer (always populated). -/
def check_nsf_overdraft (a : Analyzer) : Analyzer × Option NsfResult :=
  let r := nsfCore a.transactions
  ({ a with analysis := { a.analysis with nsf_overdraft := some r } },
   some r)

/-- `calculate_average_daily_balance` as a state transformer. -/
def calculate_average_daily_balance (a : Analyzer) : Analyzer × Option AdbResult :=
  match adbCore a.monthly_data with
  | none => (a, none)
  | some r =>
    ({ a with analysis := { a.analysis with average_daily_balance := some r } },
     some r)

/-! ### `generate_underwriting_summary` -/

/-- A red-flag or warning message; each constructor is one of the
f-strings of `generate_underwriting_summary`, carrying the numeric value
interpolated into it (the volatility message carries the squared CV, see
the header note). -/
inductive Msg where
  | highNsf (count : ℕ)
  | nsfPresent (count : ℕ)
  | decliningDepositTrend
  | highVolatility (cv_sq : ℚ)
  | largeConcentration (pct : ℚ)
  | decliningBalance (pct : ℚ)
deriving DecidableEq, Repr

/-- The dict returned by `generate_underwriting_summary`: the seven
cached sub-results (each read back with `self.analysis.get(name, {})`)
plus the derived flag lists. -/
structure Summary where
  trailing_averages : Option TrailingResult
  monthly_trends : Option TrendsResult
  deposit_categories : Option CategoriesResult
  large_deposits : Option LargeResult
  balance_trends : Option BalanceResult
  nsf_overdraft : Option NsfResult
  average_daily_balance : Option AdbResult
  red_flags : List Msg
  warnings : List Msg
  flag_count : ℕ
deriving DecidableEq, Repr

/-- The analysis-running prelude of `generate_underwriting_summary`: the
seven methods in source order, each threading the analyzer state. -/
def runAllAnalyses (a : Analyzer) : Analyzer :=
  let a1 := (calculate_trailing_averages a).1
  let a2 := (calculate_monthly_trends a1).1
  let a3 := (categorize_deposits a2).1
  let a4 := (analyze_large_deposits a3).1
  let a5 := (analyze_balance_trends a4).1
  let a6 := (check_nsf_overdraft a5).1
  (calculate_average_daily_balance a6).1

/-- The flag-compiling tail of `generate_underwriting_summary`, reading
each sub-result back from the cache with `self.analysis.get(name, {})`.
Warnings are appended in source order: NSF (the `elif` branch), declining
deposit trend, high volatility, large-deposit concentration, declining
balance; the only red flag this compiler ever emits is high NSF
activity. -/
def mkSummary (c : AnalysisCache) : Summary :=
  let nsfCount := (c.nsf_overdraft.map NsfResult.nsf_count).getD 0
  let red_flags := if nsfCount > 5 then [Msg.highNsf nsfCount] else []
  let w1 :=
    if nsfCount > 5 then []
    else if nsfCount > 0 then [Msg.nsfPresent nsfCount] else []
  let w2 :=
    if (c.monthly_trends.map TrendsResult.trend_direction).getD "" = "decreasing"
    then [Msg.decliningDepositTrend] else []
  let w3 :=
    if (c.monthly_trends.map TrendsResult.high_volatility).getD false then
      [Msg.highVolatility ((c.monthly_trends.map TrendsResult.volatility_cv_sq).getD 0)]
    else []
  let w4 :=
    if (c.large_deposits.map LargeResult.pct_from_large).getD 0 > 30 then
      [Msg.largeConcentration ((c.large_deposits.map LargeResult.pct_from_large).getD 0)]
    else []
  let w5 :=
    if (c.balance_trends.map BalanceResult.balance_change_pct).getD 0 < -20 then
      [Msg.decliningBalance ((c.balance_trends.map BalanceResult.balance_change_pct).getD 0)]
    else []
  let warnings := w1 ++ w2 ++ w3 ++ w4 ++ w5
  { trailing_averages := c.trailing_averages,
    monthly_trends := c.monthly_trends,
    deposit_categories := c.deposit_categories,
    large_deposits := c.large_deposits,
    balance_trends := c.balance_trends,
    nsf_overdraft := c.nsf_overdraft,
    average_daily_balance := c.average_daily_balance,
    red_flags := red_flags,
    warnings := warnings,
    flag_count := warnings.length + red_flags.length }

/-- `generate_underwriting_summary`: run all analyses, then compile the
report from the resulting cache. -/
def generate_underwriting_summary (a : Analyzer) : Analyzer × Summary :=
  let a7 := runAllAnalyses a
  (a7, mkSummary a7.analysis)

/-! ### Specification-side views of the aggregation

The records of a list that reach the bucket of key `k`, and the deposit /
withdrawal magnitudes the source accumulates for that bucket.  These are
the reference descriptions the aggregation is proved against. -/

/-- The records that land in bucket `k`. -/
def touching (ts : List Txn) (k : String) : List Txn :=
  ts.filter (fun t => decide (txnKey t = some k))

/-- The deposit magnitudes of bucket `k`: `abs(amount)` of the records
with `amount > 0`. -/
def depsOf (ts : List Txn) (k : String) : List ℚ :=
  ((touching ts k).filter (fun t => decide (0 < amtOf t))).map (fun t => |amtOf t|)

/-- The withdrawal magnitudes of bucket `k`: `abs(amount)` of the records
with `amount <= 0`. -/
def wdsOf (ts : List Txn) (k : String) : List ℚ :=
  ((touching ts k).filter (fun t => decide (amtOf t ≤ 0))).map (fun t => |amtOf t|)

/-! ### Association-list lemmas -/

theorem alookup_dictInsert {α : Type} (m : List (String × α)) (k : String)
    (v : α) (k₂ : String) :
    alookup (dictInsert m k v) k₂ = if k = k₂ then some v else alookup m k₂ := by
  induction m with
  | nil => by_cases h : k = k₂ <;> simp [dictInsert, alookup, h]
  | cons hd tl ih =>
    obtain ⟨k₁, v₁⟩ := hd
    by_cases h₁ : k₁ = k
    · subst h₁
      by_cases h₂ : k₁ = k₂ <;> simp [dictInsert, alookup, h₂]
    · by_cases h₂ : k₁ = k₂
      · subst h₂
        simp [dictInsert, alookup, h₁, Ne.symm h₁]
      · simp [dictInsert, alookup, h₁, h₂, ih]

theorem alookup_dictUpd {α : Type} (d : α) (m : List (String × α)) (k : String)
    (f : α → α) (k₂ : String) :
    alookup (dictUpd d m k f) k₂ =
      if k = k₂ then some (f ((alookup m k).getD d)) else alookup m k₂ := by
  induction m with
  | nil => by_cases h : k = k₂ <;> simp [dictUpd, alookup, h]
  | cons hd tl ih =>
    obtain ⟨k₁, v₁⟩ := hd
    by_cases h₁ : k₁ = k
    · subst h₁
      by_cases h₂ : k₁ = k₂ <;> simp [dictUpd, alookup, h₂]
    · by_cases h₂ : k₁ = k₂
      · subst h₂
        simp [dictUpd, alookup, h₁, Ne.symm h₁]
      · simp [dictUpd, alookup, h₁, h₂, ih]

theorem keys_dictUpd {α : Type} (d : α) (m : List (String × α)) (k : String)
    (f : α → α) :
    (dictUpd d m k f).map Prod.fst =
      if k ∈ m.map Prod.fst then m.map Prod.fst else m.map Prod.fst ++ [k] := by
  induction m with
  | nil => simp [dictUpd]
  | cons hd tl ih =>
    obtain ⟨k₁, v₁⟩ := hd
    by_cases h₁ : k₁ = k
    · subst h₁
      simp [dictUpd]
    · simp [dictUpd, h₁, ih, Ne.symm h₁]
      by_cases h₂ : k ∈ tl.map Prod.fst <;> simp [h₂, Ne.symm h₁]

theorem nodup_keys_dictUpd {α : Type} (d : α) (m : List (String × α))
    (k : String) (f : α → α) (h : (m.map Prod.fst).Nodup) :
    ((dictUpd d m k f).map Prod.fst).Nodup := by
  rw [keys_dictUpd]
  by_cases hk : k ∈ m.map Prod.fst
  · simpa [hk]
  · simpa [hk, List.nodup_append] using h

theorem nodup_keys_groupStep (m : List (String × MGroup)) (t : Txn)
    (h : (m.map Prod.fst).Nodup) : ((groupStep m t).map Prod.fst).Nodup := by
  unfold groupStep
  cases txnKey t with
  | none => exact h
  | some k => exact nodup_keys_dictUpd _ _ _ _ h

theorem nodup_keys_groupTxns (ts : List Txn) :
    ((groupTxns ts).map Prod.fst).Nodup := by
  suffices h : ∀ m : List (String × MGroup), (m.map Prod.fst).Nodup →
      ((ts.foldl groupStep m).map Prod.fst).Nodup by
    exact h [] (by simp)
  induction ts with
  | nil => intro m hm; simpa using hm
  | cons t rest ih =>
    intro m hm
    exact ih _ (nodup_keys_groupStep m t hm)

theorem alookup_eq_none_of_not_mem_keys {α : Type} (m : List (String × α))
    (k : String) (h : k ∉ m.map Prod.fst) : alookup m k = none := by
  induction m with
  | nil => rfl
  | cons hd tl ih =>
    obtain ⟨k₁, v₁⟩ := hd
    simp only [List.map_cons, List.mem_cons] at h
    push_neg at h
    simp [alookup, Ne.symm h.1, ih h.2]

theorem alookup_isSome_of_mem_keys {α : Type} (m : List (String × α))
    (k : String) (h : k ∈ m.map Prod.fst) : ∃ v, alookup m k = some v := by
  induction m with
  | nil => simp at h
  | cons hd tl ih =>
    obtain ⟨k₁, v₁⟩ := hd
    by_cases h₁ : k₁ = k
    · exact ⟨v₁, by simp [alookup, h₁]⟩
    · simp only [List.map_cons, List.mem_cons] at h
      rcases h with h | h

      · exact absurd h.symm h₁
      · obtain ⟨v, hv⟩ := ih h
        exact ⟨v, by simp [alookup, h₁, hv]⟩

/-! ### Characterization of the grouping loop -/

theorem alookup_groupTxns (ts : List Txn) (k : String) :
    alookup (groupTxns ts) k =
      if touching ts k = [] then none
      else some ⟨depsOf ts k, wdsOf ts k, touching ts k⟩ := by
  induction ts using List.reverseRecOn with
  | nil => simp [groupTxns, touching, depsOf, wdsOf, alookup]
  | append_singleton ts t ih =>
    have hsnoc : groupTxns (ts ++ [t]) = groupStep (groupTxns ts) t := by
      simp [groupTxns, List.foldl_append]
    rw [hsnoc]
    unfold groupStep
    cases h : txnKey t with
    | none =>
      have hpt : (fun t => decide (txnKey t = some k)) t = false := by simp [h]
      simp [touching, depsOf, wdsOf, List.filter_append, hpt] at ih ⊢
      exact ih
    | some k₁ =>
      rw [alookup_dictUpd]
      by_cases hk : k₁ = k
      · subst hk
        have hpt : (fun t => decide (txnKey t = some k₁)) t = true := by simp [h]
        have htouch : touching (ts ++ [t]) k₁ = touching ts k₁ ++ [t] := by
          simp [touching, List.filter_append, hpt]
        have hdeps : depsOf (ts ++ [t]) k₁ =
            depsOf ts k₁ ++ (if 0 < amtOf t then [|amtOf t|] else []) := by
          simp only [depsOf, htouch, List.filter_append, List.map_append]
          by_cases hamt : 0 < amtOf t <;> simp [hamt]
        have hwds : wdsOf (ts ++ [t]) k₁ =
            wdsOf ts k₁ ++ (if 0 < amtOf t then [] else [|amtOf t|]) := by
          simp only [wdsOf, htouch, List.filter_append, List.map_append]
          by_cases hamt : 0 < amtOf t
          · simp [not_le.mpr hamt]
          · simp [le_of_not_lt hamt, hamt]
        rw [ih]
        by_cases hT : touching ts k₁ = []
        · have hd0 : depsOf ts k₁ = [] := by simp [depsOf, hT]
          have hw0 : wdsOf ts k₁ = [] := by simp [wdsOf, hT]
          by_cases hamt : 0 < amtOf t <;>
            simp [hT, htouch, hdeps, hwds, hd0, hw0, hamt]
        · by_cases hamt : 0 < amtOf t <;>
            simp [hT, htouch, hdeps, hwds, hamt]
      · have hpt : (fun x => decide (txnKey x = some k)) t = false := by
          simp [h, hk]
        have htouch : touching (ts ++ [t]) k = touching ts k := by
          simp [touching, List.filter_append, hpt]
        have hdeps : depsOf (ts ++ [t]) k = depsOf ts k := by
          simp [depsOf, htouch]
        have hwds : wdsOf (ts ++ [t]) k = wdsOf ts k := by
          simp [wdsOf, htouch]
        simp [hk, htouch, hdeps, hwds, ih]

theorem alookup_foldl_aggInsert (l : List (String × MGroup))
    (md : List (String × MonthlyData)) (k : String)
    (h : (l.map Prod.fst).Nodup) :
    alookup (l.foldl (fun acc kg => dictInsert acc kg.1 (aggGroup kg.1 kg.2)) md) k =
      match alookup l k with
      | some g => some (aggGroup k g)
      | none => alookup md k := by
  induction l generalizing md with
  | nil => simp [alookup]
  | cons hd tl ih =>
    obtain ⟨k₁, g₁⟩ := hd
    simp only [List.map_cons, List.nodup_cons] at h
    simp only [List.foldl_cons]
    rw [ih _ h.2]
    by_cases hk : k₁ = k
    · subst hk
      rw [alookup_eq_none_of_not_mem_keys tl k₁ h.1]
      simp [alookup, alookup_dictInsert]
    · cases htl : alookup tl k <;>
        simp [alookup, hk, htl, alookup_dictInsert]

/-- The bucket map after `_process_transactions`: the bucket of key `k`
is freshly aggregated exactly when some record lands in `k`; all other
keys keep their previous value. -/
theorem alookup_processInto (md : List (String × MonthlyData)) (ts : List Txn)
    (k : String) :
    alookup (processInto md ts) k =
      if touching ts k = [] then alookup md k
      else some (aggGroup k ⟨depsOf ts k, wdsOf ts k, touching ts k⟩) := by
  unfold processInto
  rw [alookup_foldl_aggInsert _ _ _ (nodup_keys_groupTxns ts),
    alookup_groupTxns]
  by_cases hT : touching ts k = [] <;> simp [hT]

/-! ### State-effect normal forms of the seven methods -/

theorem trailing_state (a : Analyzer) :
    (calculate_trailing_averages a).1 =
      { a with analysis := { a.analysis with trailing_averages :=
          (match trailingCore a.monthly_data with
          | some r => some r
          | none => a.analysis.trailing_averages) } } := by
  cases h : trailingCore a.monthly_data <;> simp [calculate_trailing_averages, h]

theorem trailing_snd (a : Analyzer) :
    (calculate_trailing_averages a).2 = trailingCore a.monthly_data := by
  cases h : trailingCore a.monthly_data <;> simp [calculate_trailing_averages, h]

theorem trends_state (a : Analyzer) :
    (calculate_monthly_trends a).1 =
      { a with analysis := { a.analysis with monthly_trends :=
          (match trendsCore a.monthly_data with
          | some r => some r
          | none => a.analysis.monthly_trends) } } := by
  cases h : trendsCore a.monthly_data <;> simp [calculate_monthly_trends, h]

theorem trends_snd (a : Analyzer) :
    (calculate_monthly_trends a).2 = trendsCore a.monthly_data := by
  cases h : trendsCore a.monthly_data <;> simp [calculate_monthly_trends, h]

theorem categorize_state (a : Analyzer) :
    (categorize_deposits a).1 =
      { a with analysis := { a.analysis with deposit_categories :=
          (some (categorizeCore a.transactions)) } } := rfl

theorem categorize_snd (a : Analyzer) :
    (categorize_deposits a).2 = some (categorizeCore a.transactions) := rfl

theorem large_state (a : Analyzer) :
    (analyze_large_deposits a).1 =
      { a with analysis := { a.analysis with large_deposits :=
          (match largeCore a.transactions with
          | some r => some r
          | none => a.analysis.large_deposits) } } := by
  cases h : largeCore a.transactions <;> simp [analyze_large_deposits, h]

theorem large_snd (a : Analyzer) :
    (analyze_large_deposits a).2 = largeCore a.transactions := by
  cases h : largeCore a.transactions <;> simp [analyze_large_deposits, h]

theorem balance_state (a : Analyzer) :
    (analyze_balance_trends a).1 =
      { a with analysis := { a.analysis with balance_trends :=
          (match balanceCore a.monthly_data with
          | some r => some r
          | none => a.analysis.balance_trends) } } := by
  cases h : balanceCore a.monthly_data <;> simp [analyze_balance_trends, h]

theorem balance_snd (a : Analyzer) :
    (analyze_balance_trends a).2 = balanceCore a.monthly_data := by
  cases h : balanceCore a.monthly_data <;> simp [analyze_balance_trends, h]

theorem nsf_state (a : Analyzer) :
    (check_nsf_overdraft a).1 =
      { a with analysis := { a.analysis with nsf_overdraft :=
          (some (nsfCore a.transactions)) } } := rfl

theorem nsf_snd (a : Analyzer) :
    (check_nsf_overdraft a).2 = some (nsfCore a.transactions) := rfl

theorem adb_state (a : Analyzer) :
    (calculate_average_daily_balance a).1 =
      { a with analysis := { a.analysis with average_daily_balance :=
          (match adbCore a.monthly_data with
          | some r => some r
          | none => a.analysis.average_daily_balance) } } := by
  cases h : adbCore a.monthly_data <;> simp [calculate_average_daily_balance, h]

theorem adb_snd (a : Analyzer) :
    (calculate_average_daily_balance a).2 = adbCore a.monthly_data := by
  cases h : adbCore a.monthly_data <;> simp [calculate_average_daily_balance, h]

/-- The cache left behind by `generate_underwriting_summary`'s prelude:
each method overwrites its own entry when it produced a populated
result and otherwise leaves the previous entry in place. -/
def cacheAfter (a : Analyzer) : AnalysisCache :=
  { trailing_averages :=
      (match trailingCore a.monthly_data with
      | some r => some r
      | none => a.analysis.trailing_averages),
    monthly_trends :=
      (match trendsCore a.monthly_data with
      | some r => some r
      | none => a.analysis.monthly_trends),
    deposit_categories := some (categorizeCore a.transactions),
    large_deposits :=
      (match largeCore a.transactions with
      | some r => some r
      | none => a.analysis.large_deposits),
    balance_trends :=
      (match balanceCore a.monthly_data with
      | some r => some r
      | none => a.analysis.balance_trends),
    nsf_overdraft := some (nsfCore a.transactions),
    average_daily_balance :=
      (match adbCore a.monthly_data with
      | some r => some r
      | none => a.analysis.average_daily_balance) }

theorem runAll_eq (a : Analyzer) :
    runAllAnalyses a = { a with analysis := cacheAfter a } := by
  simp only [runAllAnalyses, trailing_state, trends_state, categorize_state,
    large_state, balance_state, nsf_state, adb_state]
  rfl

theorem runAll_txns (a : Analyzer) :
    (runAllAnalyses a).transactions = a.transactions := by
  rw [runAll_eq]

theorem runAll_md (a : Analyzer) :
    (runAllAnalyses a).monthly_data = a.monthly_data := by
  rw [runAll_eq]

theorem cacheAfter_idem (a : Analyzer) :
    cacheAfter { a with analysis := cacheAfter a } = cacheAfter a := by
  cases h₁ : trailingCore a.monthly_data <;>
    cases h₂ : trendsCore a.monthly_data <;>
    cases h₃ : largeCore a.transactions <;>
    cases h₄ : balanceCore a.monthly_data <;>
    cases h₅ : adbCore a.monthly_data <;>
    simp [cacheAfter, h₁, h₂, h₃, h₄, h₅]

theorem runAll_idem (a : Analyzer) :
    runAllAnalyses (runAllAnalyses a) = runAllAnalyses a := by
  rw [runAll_eq a, runAll_eq, cacheAfter_idem]

/-! ### Reachable analyzer states -/

/-- Analyzer states producible through the public loading API:
construction, `load_transactions`, and `add_monthly_summary`, in any
order and number. -/
inductive Reachable : Analyzer → Prop
  | init : Reachable Analyzer.init
  | load (a : Analyzer) (ts : List Txn) (h : Reachable a) :
      Reachable (load_transactions a ts)
  | add (a : Analyzer) (month year : ℕ)
      (bb eb td tw : ℚ) (dc : ℕ) (h : Reachable a) :
      Reachable (add_monthly_summary a month year bb eb td tw dc)

/-- Analyzer states whose bucket map was built solely by
`load_transactions` calls (no `add_monthly_summary`). -/
inductive LoadsOnly : Analyzer → Prop
  | init : LoadsOnly Analyzer.init
  | load (a : Analyzer) (ts : List Txn) (h : LoadsOnly a) :
      LoadsOnly (load_transactions a ts)

/-- The explicit form of a record the analyzer's graceful-degradation
defaults produce: a missing amount read as 0 and a missing description
read as the empty string. -/
def normalize (t : Txn) : Txn :=
  { date := t.date,
    amount := some (t.amount.getD 0),
    description := some (t.description.getD "") }

/-! ### Sorting and emptiness helper lemmas -/

theorem mem_insertKey (x y : String) (l : List String) :
    x ∈ insertKey y l ↔ x = y ∨ x ∈ l := by
  induction l with
  | nil => simp [insertKey]
  | cons z zs ih =>
    by_cases h : strLeB y z = true
    · simp [insertKey, h]
    · simp only [insertKey, h]
      simp [ih]
      tauto

theorem mem_sortStrs (x : String) (l : List String) :
    x ∈ sortStrs l ↔ x ∈ l := by
  induction l with
  | nil => simp [sortStrs]
  | cons y ys ih =>
    simp only [sortStrs, List.foldr_cons] at ih ⊢
    rw [mem_insertKey, ih, List.mem_cons]

theorem balanceCore_eq_none (md : List (String × MonthlyData))
    (h : ∀ k b, alookup md k = some b → b.ending_balance = 0) :
    balanceCore md = none := by
  unfold balanceCore
  by_cases hmd : md.isEmpty
  · simp [hmd]
  · have hfil : ((sortedKeysAsc md).map
        (fun k => (mdGet md k).ending_balance)).filter (fun b => b > 0) = [] := by
      rw [List.filter_eq_nil_iff]
      intro x hx
      simp only [List.mem_map] at hx
      obtain ⟨k, hk, hkx⟩ := hx
      have hk₂ : k ∈ md.map Prod.fst := by
        simpa [sortedKeysAsc, mem_sortStrs] using hk
      obtain ⟨b, hb⟩ := alookup_isSome_of_mem_keys md k hk₂
      have : x = 0 := by
        rw [← hkx]
        simp [mdGet, hb, h k b hb]
      simp [this]
    simp [hmd, hfil]

theorem adbCore_eq_none (md : List (String × MonthlyData))
    (h : ∀ k b, alookup md k = some b → b.average_balance = 0) :
    adbCore md = none := by
  unfold adbCore
  by_cases hmd : md.isEmpty
  · simp [hmd]
  · have hfil : ((sortedKeysAsc md).map
        (fun k => (mdGet md k).average_balance)).filter (fun b => b > 0) = [] := by
      rw [List.filter_eq_nil_iff]
      intro x hx
      simp only [List.mem_map] at hx
      obtain ⟨k, hk, hkx⟩ := hx
      have hk₂ : k ∈ md.map Prod.fst := by
        simpa [sortedKeysAsc, mem_sortStrs] using hk
      obtain ⟨b, hb⟩ := alookup_isSome_of_mem_keys md k hk₂
      have : x = 0 := by
        rw [← hkx]
        simp [mdGet, hb, h k b hb]
      simp [this]
    simp [hmd, hfil]

/-! ## The claims -/

/-- C6: every transaction reaching a monthly bucket in
`_process_transactions` is counted as a deposit of `abs(amount)` exactly
when `amount > 0` and as a withdrawal of `abs(amount)` exactly when
`amount <= 0` (so a zero-amount transaction contributes to
`withdrawal_count`, never `deposit_count`): the deposit and withdrawal
counts and totals of every produced bucket are those of the
corresponding sign-filtered magnitude lists. -/
theorem claim_C6_bucket_sign_convention (ts : List Txn) (k : String)
    (b : MonthlyData) (h : alookup (processInto [] ts) k = some b) :
    b.deposit_count = (depsOf ts k).length ∧
    b.total_deposits = (depsOf ts k).sum ∧
    b.withdrawal_count = (wdsOf ts k).length ∧
    b.total_withdrawals = (wdsOf ts k).sum := by
  rw [alookup_processInto] at h
  by_cases hT : touching ts k = []
  · rw [if_pos hT] at h
    simp [alookup] at h
  · rw [if_neg hT] at h
    have hb : b = aggGroup k ⟨depsOf ts k, wdsOf ts k, touching ts k⟩ :=
      (Option.some.inj h).symm
    subst hb
    simp [aggGroup]

/-- Concrete deposit record for C6. -/
def c6t1 : Txn :=
  { date := some "2024-01-05", amount := some 500,
    description := some "ACH DEPOSIT" }

/-- Concrete zero-amount record for C6. -/
def c6t2 : Txn :=
  { date := some "2024-01-10", amount := some 0, description := none }

/-- Concrete input for C6: one 500 deposit and one zero-amount record in
January 2024; the zero-amount record is counted as a withdrawal. -/
def c6ts : List Txn := [c6t1, c6t2]

theorem claim_C6_witness :
    (aggGroup "2024-01" ⟨depsOf c6ts "2024-01", wdsOf c6ts "2024-01",
        touching c6ts "2024-01"⟩).deposit_count = (depsOf c6ts "2024-01").length ∧
    (aggGroup "2024-01" ⟨depsOf c6ts "2024-01", wdsOf c6ts "2024-01",
        touching c6ts "2024-01"⟩).total_deposits = (depsOf c6ts "2024-01").sum ∧
    (aggGroup "2024-01" ⟨depsOf c6ts "2024-01", wdsOf c6ts "2024-01",
        touching c6ts "2024-01"⟩).withdrawal_count = (wdsOf c6ts "2024-01").length ∧
    (aggGroup "2024-01" ⟨depsOf c6ts "2024-01", wdsOf c6ts "2024-01",
        touching c6ts "2024-01"⟩).total_withdrawals = (wdsOf c6ts "2024-01").sum ∧
    ((depsOf c6ts "2024-01").length = 1 ∧ (wdsOf c6ts "2024-01").length = 1) := by
  have h := claim_C6_bucket_sign_convention c6ts "2024-01" _ (by
    rw [alookup_processInto,
      if_neg (show ¬touching c6ts "2024-01" = [] from by decide)])
  exact ⟨h.1, h.2.1, h.2.2.1, h.2.2.2, by decide, by decide⟩

/-- C4: in every bucket reachable through the public API — whether
aggregated from raw transactions by `_process_transactions` or supplied
directly via `add_monthly_summary` — `net_cash_flow` equals
`total_deposits - total_withdrawals`. -/
theorem claim_C4_net_cash_flow_invariant (a : Analyzer) (h : Reachable a) :
    ∀ k b, alookup a.monthly_data k = some b →
      b.net_cash_flow = b.total_deposits - b.total_withdrawals := by
  induction h with
  | init => intro k b hb; simp [Analyzer.init, alookup] at hb
  | load a ts _ ih =>
    intro k b hb
    simp only [load_transactions] at hb
    rw [alookup_processInto] at hb
    by_cases hT : touching ts k = []
    · rw [if_pos hT] at hb
      exact ih k b hb
    · rw [if_neg hT] at hb
      have hb₂ : b = aggGroup k ⟨depsOf ts k, wdsOf ts k, touching ts k⟩ :=
        (Option.some.inj hb).symm
      subst hb₂
      simp [aggGroup]
  | add a month year bb eb td tw dc _ ih =>
    intro k b hb
    simp only [add_monthly_summary] at hb
    rw [alookup_dictInsert] at hb
    by_cases hk : toString year ++ "-" ++ pad2 month = k
    · rw [if_pos hk] at hb
      have hb₂ := (Option.some.inj hb).symm
      subst hb₂
      rfl
    · rw [if_neg hk] at hb
      exact ih k b hb

theorem claim_C4_witness :
    ({ period := "2024-01", year := 2024, month := 1, beginning_balance := 0,
       ending_balance := 0, total_deposits := 700, total_withdrawals := 200,
       deposit_count := 0, net_cash_flow := 700 - 200,
       average_balance := (0 + 0) / 2 } : MonthlyData).net_cash_flow =
      ({ period := "2024-01", year := 2024, month := 1, beginning_balance := 0,
         ending_balance := 0, total_deposits := 700, total_withdrawals := 200,
         deposit_count := 0, net_cash_flow := 700 - 200,
         average_balance := (0 + 0) / 2 } : MonthlyData).total_deposits -
      ({ period := "2024-01", year := 2024, month := 1, beginning_balance := 0,
         ending_balance := 0, total_deposits := 700, total_withdrawals := 200,
         deposit_count := 0, net_cash_flow := 700 - 200,
         average_balance := (0 + 0) / 2 } : MonthlyData).total_withdrawals :=
  claim_C4_net_cash_flow_invariant
    (add_monthly_summary Analyzer.init 1 2024 0 0 700 200 0)
    (Reachable.add Analyzer.init 1 2024 0 0 700 200 0 Reachable.init)
    "2024-01" _ (by
      unfold add_monthly_summary Analyzer.init
      rw [show toString (2024 : ℕ) ++ "-" ++ pad2 1 = "2024-01" from by decide]
      simp [dictInsert, alookup])

/-- C10: when the bucket map was built solely by `load_transactions`
(no `add_monthly_summary`), every bucket keeps the zero defaults for
`beginning_balance`, `ending_balance` and `average_balance`, and
consequently `analyze_balance_trends` and
`calculate_average_daily_balance` both return the empty mapping —
regardless of how many transactions and buckets exist. -/
theorem claim_C10_loaded_buckets_have_zero_balances (a : Analyzer)
    (h : LoadsOnly a) :
    (∀ k b, alookup a.monthly_data k = some b →
      b.beginning_balance = 0 ∧ b.ending_balance = 0 ∧ b.average_balance = 0) ∧
    analyze_balance_trends a = (a, none) ∧
    calculate_average_daily_balance a = (a, none) := by
  have hz : ∀ k b, alookup a.monthly_data k = some b →
      b.beginning_balance = 0 ∧ b.ending_balance = 0 ∧ b.average_balance = 0 := by
    induction h with
    | init => intro k b hb; simp [Analyzer.init, alookup] at hb
    | load a ts _ ih =>
      intro k b hb
      simp only [load_transactions] at hb
      rw [alookup_processInto] at hb
      by_cases hT : touching ts k = []
      · rw [if_pos hT] at hb
        exact ih k b hb
      · rw [if_neg hT] at hb
        have hb₂ : b = aggGroup k ⟨depsOf ts k, wdsOf ts k, touching ts k⟩ :=
          (Option.some.inj hb).symm
        subst hb₂
        simp [aggGroup]
  have hbal := balanceCore_eq_none a.monthly_data (fun k b hb => (hz k b hb).2.1)
  have hadb := adbCore_eq_none a.monthly_data (fun k b hb => (hz k b hb).2.2)
  refine ⟨hz, ?_, ?_⟩
  · simp [analyze_balance_trends, hbal]
  · simp [calculate_average_daily_balance, hadb]

/-- Concrete input for C10: one dated, positive-amount record, giving a
non-empty transaction list and a non-empty bucket map. -/
def c10ts : List Txn :=
  [{ date := some "2024-01-05", amount := some 5,
     description := some "DEPOSIT" }]

theorem claim_C10_witness :
    analyze_balance_trends (load_transactions Analyzer.init c10ts) =
      (load_transactions Analyzer.init c10ts, none) ∧
    calculate_average_daily_balance (load_transactions Analyzer.init c10ts) =
      (load_transactions Analyzer.init c10ts, none) ∧
    (load_transactions Analyzer.init c10ts).transactions ≠ [] ∧
    (load_transactions Analyzer.init c10ts).monthly_data ≠ [] := by
  have h := claim_C10_loaded_buckets_have_zero_balances _
    (LoadsOnly.load Analyzer.init c10ts LoadsOnly.init)
  refine ⟨h.2.1, h.2.2, by simp [load_transactions, c10ts], ?_⟩
  show ¬(load_transactions Analyzer.init c10ts).monthly_data = []
  intro hcon
  have h₂ : alookup (processInto [] c10ts) "2024-01" = none := by
    rw [show processInto [] c10ts =
        (load_transactions Analyzer.init c10ts).monthly_data from rfl, hcon]
    rfl
  rw [alookup_processInto,
    if_neg (show ¬touching c10ts "2024-01" = [] from by decide)] at h₂
  simp at h₂

/-- C9: each analysis method leaves the transaction list and the bucket
map untouched, and calling the same method a second time on the state
the first call produced returns the identical result; the same holds for
`generate_underwriting_summary`. -/
theorem claim_C9_idempotent_no_mutation (a : Analyzer) :
    ((calculate_trailing_averages a).1.transactions = a.transactions ∧
     (calculate_trailing_averages a).1.monthly_data = a.monthly_data ∧
     (calculate_trailing_averages ((calculate_trailing_averages a).1)).2 =
       (calculate_trailing_averages a).2) ∧
    ((calculate_monthly_trends a).1.transactions = a.transactions ∧
     (calculate_monthly_trends a).1.monthly_data = a.monthly_data ∧
     (calculate_monthly_trends ((calculate_monthly_trends a).1)).2 =
       (calculate_monthly_trends a).2) ∧
    ((categorize_deposits a).1.transactions = a.transactions ∧
     (categorize_deposits a).1.monthly_data = a.monthly_data ∧
     (categorize_deposits ((categorize_deposits a).1)).2 =
       (categorize_deposits a).2) ∧
    ((analyze_large_deposits a).1.transactions = a.transactions ∧
     (analyze_large_deposits a).1.monthly_data = a.monthly_data ∧
     (analyze_large_deposits ((analyze_large_deposits a).1)).2 =
       (analyze_large_deposits a).2) ∧
    ((analyze_balance_trends a).1.transactions = a.transactions ∧
     (analyze_balance_trends a).1.monthly_data = a.monthly_data ∧
     (analyze_balance_trends ((analyze_balance_trends a).1)).2 =
       (analyze_balance_trends a).2) ∧
    ((check_nsf_overdraft a).1.transactions = a.transactions ∧
     (check_nsf_overdraft a).1.monthly_data = a.monthly_data ∧
     (check_nsf_overdraft ((check_nsf_overdraft a).1)).2 =
       (check_nsf_overdraft a).2) ∧
    ((calculate_average_daily_balance a).1.transactions = a.transactions ∧
     (calculate_average_daily_balance a).1.monthly_data = a.monthly_data ∧
     (calculate_average_daily_balance ((calculate_average_daily_balance a).1)).2 =
       (calculate_average_daily_balance a).2) ∧
    ((generate_underwriting_summary a).1.transactions = a.transactions ∧
     (generate_underwriting_summary a).1.monthly_data = a.monthly_data ∧
     (generate_underwriting_summary ((generate_underwriting_summary a).1)).2 =
       (generate_underwriting_summary a).2) := by
  refine ⟨⟨?_, ?_, ?_⟩, ⟨?_, ?_, ?_⟩, ⟨?_, ?_, ?_⟩, ⟨?_, ?_, ?_⟩,
    ⟨?_, ?_, ?_⟩, ⟨?_, ?_, ?_⟩, ⟨?_, ?_, ?_⟩, ⟨?_, ?_, ?_⟩⟩ <;>
    simp [trailing_state, trailing_snd, trends_state, trends_snd,
      categorize_state, categorize_snd, large_state, large_snd,
      balance_state, balance_snd, nsf_state, nsf_snd, adb_state, adb_snd,
      generate_underwriting_summary, runAll_idem, runAll_txns, runAll_md]

/-- C2 counterexample: the claim says every analysis method returns an
empty mapping on an empty analyzer, but `categorize_deposits` and
`check_nsf_overdraft` both return populated (zero-valued) dicts there. -/
theorem claim_C2_counterexample :
    (categorize_deposits Analyzer.init).2 ≠ none ∧
    (check_nsf_overdraft Analyzer.init).2 ≠ none := by
  constructor <;> simp [categorize_snd, nsf_snd]

/-- C2 (amended): on the freshly constructed analyzer (zero transactions,
zero buckets), the five windowed/balance analyses return the empty
mapping, `categorize_deposits` returns the all-zero category map,
`check_nsf_overdraft` returns zero counts with severity `NONE`, and
`generate_underwriting_summary` returns the well-formed report built
from exactly those sub-results, with empty `red_flags` and `warnings`
and `flag_count = 0`. -/
theorem claim_C2_empty_input_results :
    (calculate_trailing_averages Analyzer.init).2 = none ∧
    (calculate_monthly_trends Analyzer.init).2 = none ∧
    (analyze_large_deposits Analyzer.init).2 = none ∧
    (analyze_balance_trends Analyzer.init).2 = none ∧
    (calculate_average_daily_balance Analyzer.init).2 = none ∧
    (categorize_deposits Analyzer.init).2 =
      some { ach := {}, wire := {}, cash := {}, card := {}, other := {},
             total_categorized := 0 } ∧
    (check_nsf_overdraft Analyzer.init).2 = some ⟨0, 0, "NONE"⟩ ∧
    (generate_underwriting_summary Analyzer.init).2 =
      { trailing_averages := none, monthly_trends := none,
        deposit_categories :=
          some { ach := {}, wire := {}, cash := {}, card := {}, other := {},
                 total_categorized := 0 },
        large_deposits := none, balance_trends := none,
        nsf_overdraft := some ⟨0, 0, "NONE"⟩, average_daily_balance := none,
        red_flags := [], warnings := [], flag_count := 0 } := by
  refine ⟨?_, ?_, ?_, ?_, ?_, ?_, ?_, ?_⟩ <;>
    norm_num [trailing_snd, trends_snd, large_snd, balance_snd, adb_snd,
      categorize_snd, nsf_snd, generate_underwriting_summary, runAll_eq,
      cacheAfter, mkSummary, Analyzer.init, trailingCore, trendsCore,
      categorizeCore, largeCore, balanceCore, nsfCore, adbCore,
      positiveAmounts, show ("" : String) ≠ "decreasing" from by decide]

/-- The NSF accumulation loop, characterized: starting from any
accumulator, the fold adds the number of keyword-matching records and
the sum of their absolute amounts. -/
theorem nsfFold (ts : List Txn) (c : ℕ × ℚ) :
    ts.foldl (fun acc t =>
        if hasNsfKw t then (acc.1 + 1, acc.2 + |amtOf t|) else acc) c =
      (c.1 + (ts.filter hasNsfKw).length,
       c.2 + ((ts.filter hasNsfKw).map (fun t => |amtOf t|)).sum) := by
  induction ts generalizing c with
  | nil => simp
  | cons t rest ih =>
    by_cases h : hasNsfKw t
    · simp only [List.foldl_cons, h, if_pos, List.filter_cons_of_pos,
        List.length_cons, List.map_cons, List.sum_cons]
      rw [ih]
      simp only [Prod.mk.injEq]
      constructor
      · omega
      · ring
    · simp only [List.foldl_cons, h, if_neg, List.filter_cons_of_neg,
        Bool.false_eq_true, not_false_iff]
      rw [ih]

/-- C8: `check_nsf_overdraft` counts each transaction at most once even
when its upper-cased description contains several NSF keywords (the
count is the number of records whose description contains at least one
keyword), sums the absolute amounts of exactly the matched records, and
grades severity `HIGH` iff count > 5, `MODERATE` iff 0 < count <= 5 and
`NONE` iff count = 0. -/
theorem claim_C8_nsf_scan (a : Analyzer) (r : NsfResult)
    (h : (check_nsf_overdraft a).2 = some r) :
    r.nsf_count = (a.transactions.filter hasNsfKw).length ∧
    r.nsf_total_fees =
      ((a.transactions.filter hasNsfKw).map (fun t => |amtOf t|)).sum ∧
    ((r.severity = "HIGH") ↔ 5 < r.nsf_count) ∧
    ((r.severity = "MODERATE") ↔ (0 < r.nsf_count ∧ r.nsf_count ≤ 5)) ∧
    ((r.severity = "NONE") ↔ r.nsf_count = 0) := by
  rw [nsf_snd] at h
  have hr : r = nsfCore a.transactions := (Option.some.inj h).symm
  subst hr
  have hc : (nsfCore a.transactions).nsf_count =
      (a.transactions.filter hasNsfKw).length := by
    unfold nsfCore
    rw [nsfFold]
    simp
  have hf : (nsfCore a.transactions).nsf_total_fees =
      ((a.transactions.filter hasNsfKw).map (fun t => |amtOf t|)).sum := by
    unfold nsfCore
    rw [nsfFold]
    simp
  have hs : (nsfCore a.transactions).severity =
      (if (a.transactions.filter hasNsfKw).length > 5 then "HIGH"
       else if (a.transactions.filter hasNsfKw).length > 0 then "MODERATE"
       else "NONE") := by
    unfold nsfCore
    rw [nsfFold]
    simp
  refine ⟨hc, hf, ?_, ?_, ?_⟩ <;> rw [hs, hc]
  · by_cases h5 : 5 < (a.transactions.filter hasNsfKw).length
    · simp [h5, gt_iff_lt]
    · by_cases h0 : 0 < (a.transactions.filter hasNsfKw).length <;>
        simp [h5, h0, gt_iff_lt]
  · by_cases h5 : 5 < (a.transactions.filter hasNsfKw).length
    · have hx : ¬(0 < (a.transactions.filter hasNsfKw).length ∧
          (a.transactions.filter hasNsfKw).length ≤ 5) := by omega
      simp [h5, gt_iff_lt, hx]
    · by_cases h0 : 0 < (a.transactions.filter hasNsfKw).length
      · have hx : 0 < (a.transactions.filter hasNsfKw).length ∧
            (a.transactions.filter hasNsfKw).length ≤ 5 := by omega
        simp [h5, h0, gt_iff_lt, hx]
      · have hx : ¬(0 < (a.transactions.filter hasNsfKw).length ∧
            (a.transactions.filter hasNsfKw).length ≤ 5) := by omega
        simp [h5, h0, gt_iff_lt, hx]
  · by_cases h5 : 5 < (a.transactions.filter hasNsfKw).length
    · have hx : ¬(a.transactions.filter hasNsfKw).length = 0 := by omega
      simp [h5, gt_iff_lt, hx]
    · by_cases h0 : 0 < (a.transactions.filter hasNsfKw).length
      · have hx : ¬(a.transactions.filter hasNsfKw).length = 0 := by omega
        simp [h5, h0, gt_iff_lt, hx]
      · have hx : (a.transactions.filter hasNsfKw).length = 0 := by omega
        simp [h5, h0, gt_iff_lt, hx]

/-- Concrete input for C8: one record whose description contains two
keywords (counted once) and one unrelated record. -/
def c8ts : List Txn :=
  [{ date := some "2024-01-05", amount := some (-35),
     description := some "nsf overdraft item fee" },
   { date := some "2024-01-06", amount := some 20,
     description := some "coffee refund" }]

/-- Concrete analyzer state for C8. -/
def a8 : Analyzer := { transactions := c8ts }

theorem claim_C8_witness :
    (nsfCore c8ts).nsf_count = (c8ts.filter hasNsfKw).length ∧
    (nsfCore c8ts).nsf_total_fees =
      ((c8ts.filter hasNsfKw).map (fun t => |amtOf t|)).sum ∧
    (((nsfCore c8ts).severity = "HIGH") ↔ 5 < (nsfCore c8ts).nsf_count) ∧
    (((nsfCore c8ts).severity = "MODERATE") ↔
      (0 < (nsfCore c8ts).nsf_count ∧ (nsfCore c8ts).nsf_count ≤ 5)) ∧
    (((nsfCore c8ts).severity = "NONE") ↔ (nsfCore c8ts).nsf_count = 0) ∧
    (c8ts.filter hasNsfKw).length = 1 := by
  have h := claim_C8_nsf_scan a8 (nsfCore c8ts) (nsf_snd a8)
  exact ⟨h.1, h.2.1, h.2.2.1, h.2.2.2.1, h.2.2.2.2, by decide⟩

/-- The categorization loop preserves the invariant that the five
category totals sum to `total_categorized`: each positive amount is
added to exactly one category and to the grand total. -/
theorem catFold_inv (ts : List Txn) (c : CategoriesResult)
    (h : c.ach.total + c.wire.total + c.cash.total + c.card.total +
      c.other.total = c.total_categorized) :
    (ts.foldl catStep c).ach.total + (ts.foldl catStep c).wire.total +
      (ts.foldl catStep c).cash.total + (ts.foldl catStep c).card.total +
      (ts.foldl catStep c).other.total = (ts.foldl catStep c).total_categorized := by
  induction ts generalizing c with
  | nil => simpa using h
  | cons t rest ih =>
    rw [List.foldl_cons]
    refine ih (catStep c t) ?_
    unfold catStep
    split_ifs <;> first
      | exact h
      | (simp [catAdd]; linarith [h])

/-- C7: in the mapping returned by `categorize_deposits` the five
category totals sum to `total_categorized`, and whenever
`total_categorized > 0` the five `pct_of_total` fields sum to exactly
100 (the float tolerance of the original becomes exact equality over
`ℚ`). -/
theorem claim_C7_categorization_partition (a : Analyzer)
    (c : CategoriesResult) (h : (categorize_deposits a).2 = some c) :
    c.ach.total + c.wire.total + c.cash.total + c.card.total +
      c.other.total = c.total_categorized ∧
    (0 < c.total_categorized →
      c.ach.pct_of_total + c.wire.pct_of_total + c.cash.pct_of_total +
        c.card.pct_of_total + c.other.pct_of_total = 100) := by
  rw [categorize_snd] at h
  have hc : c = categorizeCore a.transactions := (Option.some.inj h).symm
  subst hc
  have hinv := catFold_inv a.transactions {} (by norm_num)
  unfold categorizeCore
  by_cases hpos : (a.transactions.foldl catStep {}).total_categorized > 0
  · rw [if_pos hpos]
    have hne : (a.transactions.foldl catStep {}).total_categorized ≠ 0 :=
      ne_of_gt hpos
    constructor
    · simpa [withPct] using hinv
    · intro
      simp only [withPct]
      rw [div_mul_eq_mul_div, div_mul_eq_mul_div, div_mul_eq_mul_div,
        div_mul_eq_mul_div, div_mul_eq_mul_div, div_add_div_same,
        div_add_div_same, div_add_div_same, div_add_div_same]
      rw [show (a.transactions.foldl catStep {}).ach.total * 100 +
          (a.transactions.foldl catStep {}).wire.total * 100 +
          (a.transactions.foldl catStep {}).cash.total * 100 +
          (a.transactions.foldl catStep {}).card.total * 100 +
          (a.transactions.foldl catStep {}).other.total * 100 =
          ((a.transactions.foldl catStep {}).ach.total +
           (a.transactions.foldl catStep {}).wire.total +
           (a.transactions.foldl catStep {}).cash.total +
           (a.transactions.foldl catStep {}).card.total +
           (a.transactions.foldl catStep {}).other.total) * 100 from by ring,
        hinv]
      rw [mul_comm, mul_div_assoc, div_self hne]
      norm_num
  · rw [if_neg hpos]
    refine ⟨hinv, fun hcon => absurd hcon hpos⟩

/-- Concrete ACH deposit record for C7. -/
def c7t1 : Txn :=
  { date := some "2024-02-03", amount := some 200,
    description := some "ACH PAYMENT RECEIVED" }

/-- Concrete input for C7: a single positive ACH deposit, giving a
strictly positive categorized total. -/
def c7ts : List Txn := [c7t1]

/-- Concrete analyzer state for C7. -/
def a7 : Analyzer := { transactions := c7ts }

theorem claim_C7_witness :
    ((categorizeCore c7ts).ach.total + (categorizeCore c7ts).wire.total +
      (categorizeCore c7ts).cash.total + (categorizeCore c7ts).card.total +
      (categorizeCore c7ts).other.total = (categorizeCore c7ts).total_categorized) ∧
    (0 < (categorizeCore c7ts).total_categorized) ∧
    ((categorizeCore c7ts).ach.pct_of_total +
      (categorizeCore c7ts).wire.pct_of_total +
      (categorizeCore c7ts).cash.pct_of_total +
      (categorizeCore c7ts).card.pct_of_total +
      (categorizeCore c7ts).other.pct_of_total = 100) := by
  have h := claim_C7_categorization_partition a7 (categorizeCore c7ts)
    (categorize_snd a7)
  have hpos : 0 < (categorizeCore c7ts).total_categorized := by
    norm_num [categorizeCore, c7ts, catStep, catAdd, withPct,
      show amtOf c7t1 = 200 from rfl,
      show strContains (descOf c7t1) "WIRE" = false from by decide,
      show strContains (descOf c7t1) "ORIG:" = false from by decide,
      show strContains (descOf c7t1) "ACH" = true from by decide]
  exact ⟨h.1, hpos, h.2 hpos⟩

/-- C5 counterexample input: three buckets supplied with negative
`total_deposits` (the manual-entry path accepts any float), newest and
oldest both -100. -/
def c5md : List (String × MonthlyData) :=
  [("2024-01", { period := "2024-01", year := 2024, month := 1,
                 total_deposits := -100 }),
   ("2024-02", { period := "2024-02", year := 2024, month := 2,
                 total_deposits := 5 }),
   ("2024-03", { period := "2024-03", year := 2024, month := 3,
                 total_deposits := -100 })]

/-- C5 counterexample: on the bucket map above the 3-month window has
newest < oldest × 0.9 (−100 < −90), so the claim's characterization
demands the label `decreasing`, yet the code labels it `increasing`
(the `increasing` test −100 > −110 fires first and takes precedence). -/
theorem claim_C5_counterexample :
    (trailingCore c5md).map TrailingResult.trend = some "increasing" ∧
    3 ≤ ((depositsDesc c5md).take 3).length ∧
    ((depositsDesc c5md).take 3).headD 0 <
      ((depositsDesc c5md).take 3).getLastD 0 * (9 / 10) := by
  have hsort : sortedKeysDesc c5md = ["2024-03", "2024-02", "2024-01"] := by
    decide
  have hdeps : depositsDesc c5md = [-100, 5, -100] := by
    rw [depositsDesc, hsort]
    norm_num [mdGet, alookup, c5md,
      show ¬("2024-01" : String) = "2024-03" from by decide,
      show ¬("2024-02" : String) = "2024-03" from by decide,
      show ¬("2024-01" : String) = "2024-02" from by decide]
  refine ⟨?_, ?_, ?_⟩
  · unfold trailingCore
    rw [if_neg (show ¬c5md.isEmpty = true from by decide)]
    rw [show depositsDesc c5md = [-100, 5, -100] from hdeps]
    norm_num
  · rw [hdeps]
    norm_num
  · rw [hdeps]
    norm_num

/-- C5 (amended): for every non-empty bucket map the 3-month trend label
satisfies: `increasing` iff the window has at least 3 buckets and the
newest deposits exceed the oldest × 1.1; `decreasing` iff the window has
at least 3 buckets, the newest fall below the oldest × 0.9 *and the
increasing test does not fire* (the `elif` gives the increasing branch
precedence — the two tests overlap only when the oldest total is
negative); `stable` otherwise. -/
theorem claim_C5_trailing_trend_amended (md : List (String × MonthlyData))
    (r : TrailingResult) (h : trailingCore md = some r) :
    ((r.trend = "increasing") ↔
      (3 ≤ ((depositsDesc md).take 3).length ∧
        ((depositsDesc md).take 3).getLastD 0 * (11 / 10) <
          ((depositsDesc md).take 3).headD 0)) ∧
    ((r.trend = "decreasing") ↔
      (3 ≤ ((depositsDesc md).take 3).length ∧
        ((depositsDesc md).take 3).headD 0 <
          ((depositsDesc md).take 3).getLastD 0 * (9 / 10) ∧
        ¬(((depositsDesc md).take 3).getLastD 0 * (11 / 10) <
          ((depositsDesc md).take 3).headD 0))) ∧
    ((r.trend = "stable") ↔
      (¬(3 ≤ ((depositsDesc md).take 3).length ∧
          ((depositsDesc md).take 3).getLastD 0 * (11 / 10) <
            ((depositsDesc md).take 3).headD 0) ∧
       ¬(3 ≤ ((depositsDesc md).take 3).length ∧
          ((depositsDesc md).take 3).headD 0 <
            ((depositsDesc md).take 3).getLastD 0 * (9 / 10) ∧
          ¬(((depositsDesc md).take 3).getLastD 0 * (11 / 10) <
            ((depositsDesc md).take 3).headD 0)))) := by
  unfold trailingCore at h
  by_cases hmd : md.isEmpty = true
  · rw [if_pos hmd] at h
    exact Option.noConfusion h
  · rw [if_neg hmd] at h
    have hr := (Option.some.inj h).symm
    subst hr
    by_cases h3 : 3 ≤ (depositsDesc md).length
    · by_cases hinc : ((depositsDesc md).take 3).getLast?.getD 0 * (11 / 10) <
          ((depositsDesc md).take 3).head?.getD 0
      · simp [h3, hinc, gt_iff_lt]
      · by_cases hdec : ((depositsDesc md).take 3).head?.getD 0 <
            ((depositsDesc md).take 3).getLast?.getD 0 * (9 / 10)
        · simp [h3, hinc, hdec, gt_iff_lt]
        · simp [h3, hinc, hdec, gt_iff_lt]
    · simp [h3, gt_iff_lt]

/-- Concrete witness input for the amended C5: the spec's Scenario A,
deposits 10000 / 9000 / 8000 newest-to-oldest, labelled `increasing`
since 10000 > 8000 × 1.1. -/
def c5wmd : List (String × MonthlyData) :=
  [("2024-01", { period := "2024-01", year := 2024, month := 1,
                 total_deposits := 8000 }),
   ("2024-02", { period := "2024-02", year := 2024, month := 2,
                 total_deposits := 9000 }),
   ("2024-03", { period := "2024-03", year := 2024, month := 3,
                 total_deposits := 10000 })]

theorem claim_C5_witness :
    (((trailingCore c5wmd).getD
        ⟨0, "", 0, 0, 0, 0, 0, 0, 0⟩).trend = "increasing") ↔
      (3 ≤ ((depositsDesc c5wmd).take 3).length ∧
        ((depositsDesc c5wmd).take 3).getLastD 0 * (11 / 10) <
          ((depositsDesc c5wmd).take 3).headD 0) := by
  have hsort : sortedKeysDesc c5wmd = ["2024-03", "2024-02", "2024-01"] := by
    decide
  have hdeps : depositsDesc c5wmd = [10000, 9000, 8000] := by
    rw [depositsDesc, hsort]
    norm_num [mdGet, alookup, c5wmd,
      show ¬("2024-01" : String) = "2024-03" from by decide,
      show ¬("2024-02" : String) = "2024-03" from by decide,
      show ¬("2024-01" : String) = "2024-02" from by decide]
  have hsome : trailingCore c5wmd =
      some ((trailingCore c5wmd).getD ⟨0, "", 0, 0, 0, 0, 0, 0, 0⟩) := by
    unfold trailingCore
    rw [if_neg (show ¬c5wmd.isEmpty = true from by decide)]
    rfl
  exact (claim_C5_trailing_trend_amended c5wmd _ hsome).1

/-- C1 (amended): whenever the balance-trend analysis yields
`balance_change_pct < -20`, `generate_underwriting_summary` places the
declining-balance message (with that percentage) in the *warnings* list
of the returned report, and never in the `red_flags` list (whose only
possible entry is the high-NSF flag). -/
theorem claim_C1_declining_balance_flag_amended (a : Analyzer)
    (r : BalanceResult) (h : (analyze_balance_trends a).2 = some r)
    (hpct : r.balance_change_pct < -20) :
    Msg.decliningBalance r.balance_change_pct ∈
      (generate_underwriting_summary a).2.warnings ∧
    Msg.decliningBalance r.balance_change_pct ∉
      (generate_underwriting_summary a).2.red_flags := by
  rw [balance_snd] at h
  have hbal : (cacheAfter a).balance_trends = some r := by
    simp [cacheAfter, h]
  have hgus : (generate_underwriting_summary a).2 = mkSummary (cacheAfter a) := by
    simp [generate_underwriting_summary, runAll_eq]
  rw [hgus]
  unfold mkSummary
  constructor
  · simp [hbal, hpct]
  · by_cases hn :
      (((cacheAfter a).nsf_overdraft.map NsfResult.nsf_count).getD 0) > 5 <;>
      simp [hn]

/-- C1 counterexample input: two manually-shaped buckets whose positive
ending balances fall from 1000 to 400, a −60 percent change. -/
def c1a : Analyzer :=
  { transactions := [],
    monthly_data :=
      [("2024-01", { period := "2024-01", year := 2024, month := 1,
                     ending_balance := 1000, average_balance := 500 }),
       ("2024-02", { period := "2024-02", year := 2024, month := 2,
                     ending_balance := 400, average_balance := 200 })] }

/-- C1 counterexample: on the analyzer above the balance-trend analysis
yields `balance_change_pct = -60 < -20`, yet the declining-balance
message lands in `warnings` while `red_flags` stays empty — the claim
says it must be in `red_flags`, not `warnings`. -/
theorem claim_C1_counterexample :
    (analyze_balance_trends c1a).2 =
      some ⟨700, 400, 1000, -600, -60, "decreasing"⟩ ∧
    ((-60 : ℚ) < -20) ∧
    Msg.decliningBalance (-60) ∉ (generate_underwriting_summary c1a).2.red_flags ∧
    Msg.decliningBalance (-60) ∈ (generate_underwriting_summary c1a).2.warnings := by
  have hsort : sortedKeysAsc c1a.monthly_data = ["2024-01", "2024-02"] := by
    decide
  have hbalcore : balanceCore c1a.monthly_data =
      some ⟨700, 400, 1000, -600, -60, "decreasing"⟩ := by
    unfold balanceCore
    rw [if_neg (show ¬c1a.monthly_data.isEmpty = true from by decide), hsort]
    norm_num [mdGet, alookup, c1a, qmean, listMin, listMax,
      show ¬("2024-01" : String) = "2024-02" from by decide]
  have htrends : trendsCore c1a.monthly_data =
      some ⟨"stable", 0, 0, false, [] ⟩ := by
    unfold trendsCore
    rw [if_neg (show ¬c1a.monthly_data.length < 2 from by decide), hsort]
    norm_num [mdGet, alookup, c1a, qmean, qvar, momChanges,
      show ¬("2024-01" : String) = "2024-02" from by decide]
  have hgus : (generate_underwriting_summary c1a).2 = mkSummary (cacheAfter c1a) := by
    simp [generate_underwriting_summary, runAll_eq]
  have hcache_bal : (cacheAfter c1a).balance_trends =
      some ⟨700, 400, 1000, -600, -60, "decreasing"⟩ := by
    simp [cacheAfter, hbalcore]
  have hcache_tr : (cacheAfter c1a).monthly_trends =
      some ⟨"stable", 0, 0, false, []⟩ := by
    simp [cacheAfter, htrends]
  have hcache_nsf : (cacheAfter c1a).nsf_overdraft = some ⟨0, 0, "NONE"⟩ := by
    simp [cacheAfter, nsfCore, c1a]
  have hcache_large : (cacheAfter c1a).large_deposits = none := by
    simp [cacheAfter, largeCore, positiveAmounts, c1a]
  refine ⟨by rw [balance_snd]; exact hbalcore, by norm_num, ?_, ?_⟩
  · rw [hgus]
    unfold mkSummary
    rw [hcache_nsf]
    norm_num
  · rw [hgus]
    unfold mkSummary
    rw [hcache_nsf, hcache_tr, hcache_large, hcache_bal]
    norm_num [show ¬("stable" : String) = "decreasing" from by decide]

/-- Concrete witness for the amended C1: the same two-bucket analyzer,
with the hypotheses of the amended theorem discharged concretely. -/
theorem claim_C1_witness :
    Msg.decliningBalance
        ((⟨700, 400, 1000, -600, -60, "decreasing"⟩ :
          BalanceResult).balance_change_pct) ∈
      (generate_underwriting_summary c1a).2.warnings ∧
    Msg.decliningBalance
        ((⟨700, 400, 1000, -600, -60, "decreasing"⟩ :
          BalanceResult).balance_change_pct) ∉
      (generate_underwriting_summary c1a).2.red_flags :=
  claim_C1_declining_balance_flag_amended c1a
    ⟨700, 400, 1000, -600, -60, "decreasing"⟩
    (by
      rw [balance_snd]
      unfold balanceCore
      rw [if_neg (show ¬c1a.monthly_data.isEmpty = true from by decide),
        show sortedKeysAsc c1a.monthly_data = ["2024-01", "2024-02"] from by decide]
      norm_num [mdGet, alookup, c1a, qmean, listMin, listMax,
        show ¬("2024-01" : String) = "2024-02" from by decide])
    (by norm_num)

/-- Normalization leaves the bucket key unchanged (the date field is
untouched). -/
theorem normalize_key (t : Txn) : txnKey (normalize t) = txnKey t := rfl

/-- Normalization leaves the read amount unchanged: a missing amount and
an explicit 0 are indistinguishable to every reader. -/
theorem normalize_amt (t : Txn) : amtOf (normalize t) = amtOf t := rfl

/-- Normalization leaves the read description unchanged: a missing
description and an explicit empty string are indistinguishable. -/
theorem normalize_desc (t : Txn) : descOf (normalize t) = descOf t := rfl

theorem touching_map_normalize (ts : List Txn) (k : String) :
    touching (ts.map normalize) k = (touching ts k).map normalize := by
  induction ts with
  | nil => rfl
  | cons t rest ih =>
    by_cases h : txnKey t = some k
    · simp [touching, normalize_key, h] at ih ⊢
      exact ih
    · simp [touching, normalize_key, h] at ih ⊢
      exact ih

theorem depsOf_map_normalize (ts : List Txn) (k : String) :
    depsOf (ts.map normalize) k = depsOf ts k := by
  unfold depsOf
  rw [touching_map_normalize]
  induction touching ts k with
  | nil => rfl
  | cons t rest ih =>
    by_cases h : 0 < amtOf t
    · simp [normalize_amt, h] at ih ⊢
      exact ih
    · simp [normalize_amt, h] at ih ⊢
      exact ih

theorem wdsOf_map_normalize (ts : List Txn) (k : String) :
    wdsOf (ts.map normalize) k = wdsOf ts k := by
  unfold wdsOf
  rw [touching_map_normalize]
  induction touching ts k with
  | nil => rfl
  | cons t rest ih =>
    by_cases h : amtOf t ≤ 0
    · simp [normalize_amt, h] at ih ⊢
      exact ih
    · simp [normalize_amt, h] at ih ⊢
      exact ih

theorem positiveAmounts_map_normalize (ts : List Txn) :
    positiveAmounts (ts.map normalize) = positiveAmounts ts := by
  unfold positiveAmounts
  induction ts with
  | nil => rfl
  | cons t rest ih =>
    by_cases h : 0 < amtOf t
    · simp [normalize_amt, h] at ih ⊢
      exact ih
    · simp [normalize_amt, h] at ih ⊢
      exact ih

/-- C3: graceful degradation on malformed records.  "No exception" is
the totality of every function of this embedding; the behavioral
content proved here is: (1) a record whose date is missing or
unparseable contributes nothing to monthly aggregation, wherever it
sits in the list; (2) replacing every missing amount by an explicit 0
and every missing description by an explicit empty string (the
`normalize` map) changes no bucket of the monthly aggregation; and
(3-5) the three transaction-consuming analyses (categorization,
NSF scan, large-deposit outliers) are likewise unchanged under that
normalization, i.e. missing amounts are read as 0 and missing
descriptions as the empty string everywhere. -/
theorem claim_C3_graceful_malformed_input :
    (∀ (md : List (String × MonthlyData)) (ts1 ts2 : List Txn) (t : Txn),
      txnKey t = none →
      processInto md (ts1 ++ t :: ts2) = processInto md (ts1 ++ ts2)) ∧
    (∀ (md : List (String × MonthlyData)) (ts : List Txn) (k : String),
      alookup (processInto md (ts.map normalize)) k =
        alookup (processInto md ts) k) ∧
    (∀ ts : List Txn, categorizeCore (ts.map normalize) = categorizeCore ts) ∧
    (∀ ts : List Txn, nsfCore (ts.map normalize) = nsfCore ts) ∧
    (∀ ts : List Txn, largeCore (ts.map normalize) = largeCore ts) := by
  refine ⟨?_, ?_, ?_, ?_, ?_⟩
  · intro md ts1 ts2 t h
    have hg : groupTxns (ts1 ++ t :: ts2) = groupTxns (ts1 ++ ts2) := by
      unfold groupTxns
      rw [List.foldl_append, List.foldl_append, List.foldl_cons,
        show groupStep (List.foldl groupStep [] ts1) t =
          List.foldl groupStep [] ts1 from by simp [groupStep, h]]
    unfold processInto
    rw [hg]
  · intro md ts k
    rw [alookup_processInto, alookup_processInto, touching_map_normalize,
      depsOf_map_normalize, wdsOf_map_normalize]
    by_cases hT : touching ts k = []
    · simp [hT]
    · rw [if_neg (by simpa using hT), if_neg hT]
      rfl
  · intro ts
    unfold categorizeCore
    rw [List.foldl_map,
      show (fun (c : CategoriesResult) t => catStep c (normalize t)) = catStep
        from by funext c t; rfl]
  · intro ts
    unfold nsfCore
    rw [List.foldl_map,
      show (fun (acc : ℕ × ℚ) t =>
          if hasNsfKw (normalize t) then (acc.1 + 1, acc.2 + |amtOf (normalize t)|)
          else acc) =
        (fun (acc : ℕ × ℚ) t =>
          if hasNsfKw t then (acc.1 + 1, acc.2 + |amtOf t|) else acc)
        from by funext acc t; rfl]
  · intro ts
    unfold largeCore
    rw [positiveAmounts_map_normalize]

/-- A record whose date string parses under neither accepted format. -/
def c3bad : Txn :=
  { date := some "not-a-date", amount := some 50, description := some "X" }

/-- A record with a parseable date but missing amount and description. -/
def c3miss : Txn := { date := some "2024-01-05" }

theorem claim_C3_witness :
    processInto [] ([] ++ c3bad :: []) = processInto [] ([] ++ []) ∧
    alookup (processInto [] ([c3miss].map normalize)) "2024-01" =
      alookup (processInto [] [c3miss]) "2024-01" ∧
    categorizeCore ([c3miss].map normalize) = categorizeCore [c3miss] ∧
    nsfCore ([c3miss].map normalize) = nsfCore [c3miss] ∧
    largeCore ([c3miss].map normalize) = largeCore [c3miss] := by
  have h := claim_C3_graceful_malformed_input
  exact ⟨h.1 [] [] [] c3bad (by decide),
    h.2.1 [] [c3miss] "2024-01",
    h.2.2.1 [c3miss],
    h.2.2.2.1 [c3miss],
    h.2.2.2.2 [c3miss]⟩

end Cashflow
